import Mathlib

/-!
Verification of the RAG query pipeline in `fastapi-server/api/query.py`.

Python strings are modelled as lists of characters (`PyStr`), so that the
string operations the pipeline uses (`split`, `strip`, `in`) can be given
faithful structurally recursive definitions and reasoned about by
induction.  Similarity scores are modelled as rationals (only their order
matters to the pipeline).  The three external collaborators — the
embedding model (`models.embedding_model.create_embeddings`), the vector
store (`db.vector_db.query_vector_db`) and the LLM chat endpoint — are
not part of the repository's sources; following the spec they are
modelled as a `World` of oracle outcomes: the embedding call and the LLM
call may raise a generic exception carrying a message, the retrieval call
never fails and returns a pair of lists (chunks, similarity scores).
-/

/-- Python strings, modelled as lists of characters. -/
abbrev PyStr := List Char

/-- Shorthand turning a Lean string literal into the `PyStr` model. -/
def S (s : String) : PyStr := s.data

/-- The characters Python's `str.strip()` removes: CPython's Unicode
whitespace predicate (`str.isspace`), which holds for exactly the code
points 09-0D, 1C-1F, 20, 85, A0, 1680, 2000-200A, 2028, 2029, 202F,
205F and 3000. -/
def pyIsSpace (c : Char) : Bool :=
  (0x09 ≤ c.toNat && c.toNat ≤ 0x0d) || (0x1c ≤ c.toNat && c.toNat ≤ 0x20) ||
    c.toNat = 0x85 || c.toNat = 0xa0 || c.toNat = 0x1680 ||
    (0x2000 ≤ c.toNat && c.toNat ≤ 0x200a) ||
    c.toNat = 0x2028 || c.toNat = 0x2029 || c.toNat = 0x202f ||
    c.toNat = 0x205f || c.toNat = 0x3000

/-- Python `s.strip()`: remove whitespace from both ends. -/
def pyStrip (s : PyStr) : PyStr :=
  ((s.dropWhile pyIsSpace).reverse.dropWhile pyIsSpace).reverse

/-- Python `sep in s`: does `sep` occur as a contiguous substring of `s`? -/
def containsSub (sep : PyStr) : PyStr → Bool
  | [] => sep.isEmpty
  | c :: rest => sep.isPrefixOf (c :: rest) || containsSub sep rest

/-- Worker for `pySplit`, scanning left to right for non-overlapping
occurrences of `sep`.  `fuel` bounds the recursion; `pySplit` supplies
`s.length`, which suffices because every step consumes at least one
character of the remaining text when `sep` is non-empty. -/
def pySplitAux (sep : PyStr) : Nat → PyStr → PyStr → List PyStr
  | 0, s, cur => [cur.reverse ++ s]
  | fuel + 1, s, cur =>
    match s with
    | [] => [cur.reverse]
    | c :: rest =>
      if sep.isPrefixOf (c :: rest) then
        cur.reverse :: pySplitAux sep fuel ((c :: rest).drop sep.length) []
      else
        pySplitAux sep fuel rest (c :: cur)

/-- Python `s.split(sep)` for a non-empty separator: the pieces of `s`
between consecutive non-overlapping occurrences of `sep`, scanning from
the left. -/
def pySplit (sep s : PyStr) : List PyStr := pySplitAux sep s.length s []

/-- The literal marker `"Reasoning:"` the pipeline's prompt demands. -/
def reaM : PyStr := S "Reasoning:"

/-- The literal marker `"Answer:"` the pipeline's prompt demands. -/
def ansM : PyStr := S "Answer:"

/-- The response-parsing block of `query_llm` (query.py lines 205-216):
`reasoning` starts as `""` and `answer` as the full response; when both
markers occur, the text is split on `"Answer:"` and `parts[1]` (stripped)
becomes the answer, while `parts[0]` is split on `"Reasoning:"` and
`reasoning_parts[1]` (stripped) becomes the reasoning. -/
def parseResponse (full_response : PyStr) : PyStr × PyStr :=
  if containsSub reaM full_response && containsSub ansM full_response then
    let parts := pySplit ansM full_response
    if 1 < parts.length then
      let answer := pyStrip (parts.getD 1 [])
      let reasoning_parts := pySplit reaM (parts.getD 0 [])
      if 1 < reasoning_parts.length then
        (pyStrip (reasoning_parts.getD 1 []), answer)
      else
        ([], answer)
    else
      ([], full_response)
  else
    ([], full_response)

deriving instance DecidableEq for Except

/-- A retrieved unit as the pipeline reads it: `chunk["text"]`,
`chunk["metadata"].get("title", ...)` and
`chunk["metadata"].get("source_url", ...)`; missing metadata keys are
modelled by `none`. -/
structure Chunk where
  text : PyStr
  title : Option PyStr
  source_url : Option PyStr
deriving DecidableEq

/-- The typed response of the endpoint (query.py `QueryResponse`). -/
structure QueryResponse where
  answer : PyStr
  reasoning : PyStr
  source_urls : List PyStr
  model_used : Option PyStr
deriving DecidableEq

/-- The request body of the endpoint (query.py `QueryRequest`). -/
structure QueryRequest where
  question : PyStr
  llm_choice : PyStr
  model : Option PyStr
  api_key : Option PyStr

/-- The Python exceptions that flow through this pipeline. -/
inductive PyExc where
  | valueError : PyStr → PyExc
  | httpException : Nat → PyStr → PyExc
  | nameError : PyStr → PyExc
  | otherError : PyStr → PyExc
deriving DecidableEq

/-- Python `str(e)` on the exceptions of `PyExc`.  For an
`UnboundLocalError` (a `NameError`) CPython prints the message modelled
here; for a starlette `HTTPException` it prints `"status: detail"`. -/
def strExc : PyExc → PyStr
  | .valueError m => m
  | .httpException s d => S (toString s) ++ S ": " ++ d
  | .nameError v => S "cannot access local variable '" ++ v ++
      S "' where it is not associated with a value"
  | .otherError m => m

/-- Python truthiness of an `Optional[str]`: `None` and `""` are falsy. -/
def pyFalsyOpt : Option PyStr → Bool
  | none => true
  | some s => s.isEmpty

/-- The events a run of the pipeline can emit towards its external
collaborators, in order. -/
inductive Ev where
  | embedCall
  | retrieveCall
  | llmCall
deriving DecidableEq

/-- One query's oracle: the outcomes of the (at most one) embedding call,
retrieval call and LLM chat call.  Modelled from the spec: the modules
`models.embedding_model` and `db.vector_db` and the OpenAI client are not
under the repository's sources; per the spec the embedding call and the
LLM call may raise a generic exception (carrying a diagnostic message),
and the retrieval call never fails and returns chunks with their
similarity scores. -/
structure World where
  embedR : Except PyStr Nat
  retrieveR : List Chunk × List ℚ
  llmR : Except PyStr PyStr

/-- query.py line 20: the LM Studio base URL. -/
def LM_STUDIO_URL : PyStr := S "http://localhost:1234/v1"

/-- query.py line 21: the LM Studio placeholder API key. -/
def LM_STUDIO_API_KEY : PyStr := S "lm-studio"

/-- query.py line 24: the Groq base URL. -/
def GROQ_API_URL : PyStr := S "https://api.groq.com/openai/v1"

/-- One entry of the Groq model catalog. -/
structure GroqEntry where
  name : PyStr
  description : PyStr
  max_tokens : Nat
deriving DecidableEq

/-- query.py lines 25-46: the `GROQ_MODELS` catalog. -/
def GROQ_MODELS : List (PyStr × GroqEntry) :=
  [ (S "llama3-8b-8192",
      ⟨S "Llama-3 8B", S "Balanced speed and quality, good for most queries", 8192⟩),
    (S "llama3-70b-8192",
      ⟨S "Llama-3 70B", S "Highest quality responses, best reasoning abilities", 8192⟩),
    (S "gemma-7b-it",
      ⟨S "Gemma 7B", S "Fast, efficient model for simpler queries", 8192⟩),
    (S "mixtral-8x7b-32768",
      ⟨S "Mixtral 8x7B", S "Strong performance with longer context window", 32768⟩) ]

/-- query.py line 47: the default Groq model id. -/
def DEFAULT_GROQ_MODEL : PyStr := S "llama3-8b-8192"

/-- Python `GROQ_MODELS.get(m)`: the catalog entry of `m`, if any. -/
def groqFind (m : PyStr) : Option GroqEntry :=
  (GROQ_MODELS.find? fun p => decide (p.1 = m)).map Prod.snd

/-- An OpenAI client handle: just a base URL and a key (query.py builds
one without any network call). -/
structure Client where
  base_url : PyStr
  api_key : PyStr
deriving DecidableEq

/-- query.py lines 83-92 `get_openai_client`: local returns the LM Studio
client; groq demands a truthy api key (`ValueError` otherwise); any other
choice raises `ValueError("Unsupported LLM choice: ...")`.  The `.error`
value is the `ValueError` message. -/
def get_openai_client (llm_choice : PyStr) (api_key : Option PyStr) :
    Except PyStr Client :=
  if llm_choice = S "local" then
    .ok ⟨LM_STUDIO_URL, LM_STUDIO_API_KEY⟩
  else if llm_choice = S "groq" then
    if pyFalsyOpt api_key then
      .error (S "A valid Groq API key is required to use Groq models")
    else
      .ok ⟨GROQ_API_URL, (api_key.getD [])⟩
  else
    .error (S "Unsupported LLM choice: " ++ llm_choice)

/-- query.py lines 94-107 `get_model_for_provider`: local uses the fixed
LM Studio model id; groq uses the requested model when it is truthy and
in the catalog, else the default; any other choice falls back to the
LM Studio id. -/
def get_model_for_provider (llm_choice : PyStr) (model_id : Option PyStr) : PyStr :=
  if llm_choice = S "local" then
    S "deepseek-r1-distill-qwen-7b"
  else if llm_choice = S "groq" then
    match model_id with
    | some m => if m ≠ [] ∧ (groqFind m).isSome then m else DEFAULT_GROQ_MODEL
    | none => DEFAULT_GROQ_MODEL
  else
    S "deepseek-r1-distill-qwen-7b"

/-- query.py lines 185-189: the token budget; for a groq catalog model
`min(1500, max_tokens // 4)`, else the local default 800. -/
def computeMaxTokens (llm_choice : PyStr) (model_id : PyStr) : Nat :=
  if llm_choice = S "groq" then
    match groqFind model_id with
    | some e => min 1500 (e.max_tokens / 4)
    | none => 800
  else 800

/-- query.py line 128: the label attached to the insufficient-context
response, `GROQ_MODELS.get(model, {}).get('name', model)` when the choice
is groq and the requested model is truthy, else `"Local LLM"`. -/
def insuffModelInfo (llm_choice : PyStr) (model : Option PyStr) : PyStr :=
  match model with
  | some m =>
    if llm_choice = S "groq" ∧ m ≠ [] then
      match groqFind m with
      | some e => e.name
      | none => m
    else S "Local LLM"
  | none => S "Local LLM"

/-- query.py lines 225-228: the label attached to a generated response:
the catalog display name for a groq catalog model, else the fixed
`"Local LLM (LM-Studio)"`. -/
def generatedModelLabel (llm_choice : PyStr) (model_id : PyStr) : PyStr :=
  if llm_choice = S "groq" then
    match groqFind model_id with
    | some e => e.name
    | none => S "Local LLM (LM-Studio)"
  else S "Local LLM (LM-Studio)"

/-- query.py lines 247-251: the detail of the 500 raised when the try
block fails with a non-`ValueError` exception whose text is `errText`. -/
def llmErrorDetail (llm_choice : PyStr) (model : Option PyStr) (errText : PyStr) : PyStr :=
  if llm_choice = S "local" then
    S "Local LLM query failed. Is LM-Studio running at " ++ LM_STUDIO_URL ++
      S "? Error: " ++ errText
  else
    let model_name : PyStr :=
      match model with
      | some m =>
        if m ≠ [] then
          match groqFind m with
          | some e => e.name
          | none => m
        else S "default"
      | none => S "default"
    S "Groq API query with model " ++ model_name ++
      S " failed. Please check your API key and try again. Error: " ++ errText

/-- query.py line 130: the fixed insufficient-information answer. -/
def insuffAnswer : PyStr := S "I don't have enough information to answer that question."

/-- query.py line 131: the fixed insufficient-information reasoning. -/
def insuffReasoning : PyStr := S "No reasoning available due to lack of context."

/-- query.py line 137: `sorted(zip(relevant_chunks, similarities),
key=lambda x: x[1], reverse=True)`.  Python's `sorted` is a stable sort;
with `reverse=True` it yields the scores in descending order with ties
kept in their original order.  `List.insertionSort` with the relation
"left score is at least right score" is exactly that stable descending
sort (sortedness, stability and permutation are proved below). -/
def rankChunks (relevant_chunks : List Chunk) (similarities : List ℚ) :
    List (Chunk × ℚ) :=
  List.insertionSort (fun a b => b.2 ≤ a.2) (relevant_chunks.zip similarities)

/-- query.py line 146: the `source_url` a chunk pair contributes,
`chunk["metadata"].get("source_url", "")`. -/
def urlOf (x : Chunk × ℚ) : PyStr := x.1.source_url.getD []

/-- query.py lines 143-148: the accumulator loop collecting source urls:
append a chunk's url when it is non-empty and not yet collected. -/
def collectUrls : List PyStr → List (Chunk × ℚ) → List PyStr
  | acc, [] => acc
  | acc, x :: rest =>
    if urlOf x ≠ [] ∧ urlOf x ∉ acc then
      collectUrls (acc ++ [urlOf x]) rest
    else
      collectUrls acc rest

/-- query.py lines 143-148 as run by `query_llm`: the url loop started
with the empty accumulator. -/
def extractSourceUrls (sorted_chunks : List (Chunk × ℚ)) : List PyStr :=
  collectUrls [] sorted_chunks

/-- Modelled from the spec: keeping the first occurrence of every entry
of a list, in first-occurrence order ("skipping exact duplicates,
preserving first-occurrence order").  The reference the url extraction
is compared with. -/
def specDedupFirst : List PyStr → List PyStr
  | [] => []
  | u :: rest => u :: specDedupFirst (rest.filter (fun v => decide (v ≠ u)))
termination_by l => l.length
decreasing_by
  exact Nat.lt_succ_of_le (List.length_filter_le _ _)

/-- query.py lines 151-155: one labeled context block,
`f"Source {i+1} - {title} ({source_url}):\n{chunk['text']}"` with the
`"Untitled"` and `"Unknown source"` placeholders. -/
def chunkBlock (i : Nat) (c : Chunk) : PyStr :=
  S "Source " ++ S (toString (i + 1)) ++ S " - " ++ c.title.getD (S "Untitled") ++
    S " (" ++ c.source_url.getD (S "Unknown source") ++ S "):\n" ++ c.text

/-- query.py lines 150-157: the combined context, the blocks of the
ranked chunks joined by `"\n\n---\n\n"` in rank order. -/
def assembleContext (sorted_chunks : List (Chunk × ℚ)) : PyStr :=
  List.intercalate (S "\n\n---\n\n")
    (sorted_chunks.enum.map fun p => chunkBlock p.1 p.2.1)

/-- query.py lines 160-177: the instruction template around the combined
context and the question. -/
def buildPrompt (combined_context question : PyStr) : PyStr :=
  S "Answer the question based only on the following context. If the context doesn't contain the answer, say \"I don't have information about that in my knowledge base.\"\n\nContext:\n" ++
    combined_context ++ S "\n\nQuestion: " ++ question ++
    S "\n\nYou MUST structure your response in exactly this format:\n1. First provide your step-by-step reasoning\n2. Then provide your final answer\n\n```\nReasoning: [your detailed reasoning here]\nAnswer: [your concise answer here]\n```\nReasoning:\n"

/-- query.py lines 109-253 `query_llm`, as a function of the oracle
world.  The result is the returned `QueryResponse` or the raised
exception, paired with the trace of external calls made.  Notable
faithfulness points:
the embedding and retrieval calls happen before the `try` block, so
their exceptions propagate raw;
an empty chunk list returns the insufficient-information response before
any client is built;
a `ValueError` from `get_openai_client` is turned into a 400 by the
`except ValueError` arm;
when the chat call raises, the inner `except Exception` arm (written for
parse errors) runs `answer = full_response` with `full_response` never
assigned, so an `UnboundLocalError` on `full_response` replaces the
original exception and reaches the outer `except Exception` arm, which
raises the 500 with that exception's text;
when the chat call returns, the parsing block is pure and cannot raise,
so the inner except arm is never entered on that path. -/
def query_llm (w : World) (question llm_choice : PyStr)
    (model api_key : Option PyStr) : Except PyExc QueryResponse × List Ev :=
  match w.embedR with
  | .error e => (.error (.otherError e), [.embedCall])
  | .ok _question_embedding =>
    let relevant_chunks := w.retrieveR.1
    let similarities := w.retrieveR.2
    if relevant_chunks.isEmpty then
      (.ok ⟨insuffAnswer, insuffReasoning, [], some (insuffModelInfo llm_choice model)⟩,
        [.embedCall, .retrieveCall])
    else
      let sorted_chunks := rankChunks relevant_chunks similarities
      let source_urls := extractSourceUrls sorted_chunks
      let combined_context := assembleContext sorted_chunks
      let _structured_prompt := buildPrompt combined_context question
      match get_openai_client llm_choice api_key with
      | .error ve => (.error (.httpException 400 ve), [.embedCall, .retrieveCall])
      | .ok _base_client =>
        let model_id := get_model_for_provider llm_choice model
        let _max_tokens := computeMaxTokens llm_choice model_id
        match w.llmR with
        | .error _llm_exc =>
          (.error (.httpException 500
              (llmErrorDetail llm_choice model (strExc (.nameError (S "full_response"))))),
            [.embedCall, .retrieveCall, .llmCall])
        | .ok full_response =>
          let pr := parseResponse full_response
          (.ok ⟨pr.2, pr.1, source_urls, some (generatedModelLabel llm_choice model_id)⟩,
            [.embedCall, .retrieveCall, .llmCall])

/-- query.py lines 255-278 `query_knowledge`: the endpoint.  The groq
api-key precheck raises a 400 before anything else runs (it is re-raised
unchanged by the `except HTTPException` arm); then `query_llm` runs and
its exceptions go through the handler chain `except ValueError` (400),
`except HTTPException` (re-raise unchanged), `except Exception`
(500 with `"Internal server error: "` and the exception's text). -/
def query_knowledge (w : World) (q : QueryRequest) :
    Except PyExc QueryResponse × List Ev :=
  if q.llm_choice = S "groq" ∧ pyFalsyOpt q.api_key then
    (.error (.httpException 400 (S "Groq API key is required when using Groq models")), [])
  else
    match query_llm w q.question q.llm_choice q.model q.api_key with
    | (.ok resp, tr) => (.ok resp, tr)
    | (.error (.valueError m), tr) => (.error (.httpException 400 m), tr)
    | (.error (.httpException s d), tr) => (.error (.httpException s d), tr)
    | (.error e, tr) =>
      (.error (.httpException 500 (S "Internal server error: " ++ strExc e)), tr)

/-- The ranking relation of `rankChunks` is total on score pairs. -/
instance : IsTotal (Chunk × ℚ) (fun a b => b.2 ≤ a.2) :=
  ⟨fun a b => le_total b.2 a.2⟩

/-- The ranking relation of `rankChunks` is transitive. -/
instance : IsTrans (Chunk × ℚ) (fun a b => b.2 ≤ a.2) :=
  ⟨fun _ _ _ h1 h2 => le_trans h2 h1⟩

/-- A concrete chunk for the concrete instances below. -/
def chunkA : Chunk := ⟨S "alpha text", some (S "TA"), some (S "http://a")⟩

/-- A second concrete chunk for the concrete instances below. -/
def chunkB : Chunk := ⟨S "beta text", some (S "TB"), some (S "http://b")⟩

/-- A concrete world whose retrieval returns exactly one chunk
(`chunkA`, similarity 1) and whose LLM call has the given outcome. -/
def worldOne (llmR : Except PyStr PyStr) : World :=
  ⟨.ok 0, ([chunkA], [1]), llmR⟩

/-- C1: when the embedding call succeeds and retrieval returns an empty
chunk list, `query_llm` returns (does not raise) exactly the terminal
response with the fixed insufficient-information answer and reasoning
and an empty source list, and the trace shows no LLM call was made. -/
theorem c1_insufficient_context_terminal (w : World) (question llm_choice : PyStr)
    (model api_key : Option PyStr) (emb : Nat)
    (hemb : w.embedR = .ok emb) (hret : w.retrieveR.1 = []) :
    query_llm w question llm_choice model api_key =
      (.ok ⟨insuffAnswer, insuffReasoning, [], some (insuffModelInfo llm_choice model)⟩,
        [.embedCall, .retrieveCall]) ∧
    Ev.llmCall ∉ (query_llm w question llm_choice model api_key).2 := by
  refine ⟨by simp [query_llm, hemb, hret], ?_⟩
  simp [query_llm, hemb, hret]

/-- Witness for C1: the terminal insufficient-information response at a
concrete world with empty retrieval. -/
theorem c1_witness :
    query_llm ⟨.ok 0, ([], []), .ok []⟩ (S "What is X?") (S "local") none none =
      (.ok ⟨insuffAnswer, insuffReasoning, [],
          some (insuffModelInfo (S "local") none)⟩,
        [.embedCall, .retrieveCall]) ∧
    Ev.llmCall ∉ (query_llm ⟨.ok 0, ([], []), .ok []⟩ (S "What is X?") (S "local") none none).2 :=
  c1_insufficient_context_terminal ⟨.ok 0, ([], []), .ok []⟩ (S "What is X?")
    (S "local") none none 0 rfl rfl

/-- C2 counterexample: a request with the unsupported provider
`"openai"` is rejected only with a 400 after the embedding call and the
retrieval call have both been made, so the claim that every validation
error is rejected before any external call is false on the code. -/
theorem c2_counterexample :
    query_knowledge (worldOne (.ok [])) ⟨S "What is X?", S "openai", none, none⟩ =
      (.error (.httpException 400 (S "Unsupported LLM choice: openai")),
        [.embedCall, .retrieveCall]) ∧
    Ev.embedCall ∈
      (query_knowledge (worldOne (.ok [])) ⟨S "What is X?", S "openai", none, none⟩).2 ∧
    Ev.retrieveCall ∈
      (query_knowledge (worldOne (.ok [])) ⟨S "What is X?", S "openai", none, none⟩).2 := by
  refine ⟨by decide, by decide, by decide⟩

/-- C2 amended: a missing or empty credential for the groq provider is
rejected with a 400 before any external call (empty trace); an
unsupported provider identifier never leads to an LLM call, but it is
rejected (with the 400 `ValueError` detail) only after the embedding and
retrieval calls, and only when retrieval is non-empty. -/
theorem c2_amended_validation :
    (∀ w q, q.llm_choice = S "groq" → pyFalsyOpt q.api_key = true →
      query_knowledge w q =
        (.error (.httpException 400 (S "Groq API key is required when using Groq models")),
          [])) ∧
    (∀ w q, q.llm_choice ≠ S "local" → q.llm_choice ≠ S "groq" →
      Ev.llmCall ∉ (query_knowledge w q).2 ∧
      (∀ emb, w.embedR = .ok emb → w.retrieveR.1 ≠ [] →
        query_knowledge w q =
          (.error (.httpException 400 (S "Unsupported LLM choice: " ++ q.llm_choice)),
            [.embedCall, .retrieveCall]))) := by
  constructor
  · intro w q hgroq hkey
    simp [query_knowledge, hgroq, hkey]
  · intro w q hlocal hgroq
    have hclient : get_openai_client q.llm_choice q.api_key =
        .error (S "Unsupported LLM choice: " ++ q.llm_choice) := by
      simp [get_openai_client, hlocal, hgroq]
    constructor
    · rcases hw : w.embedR with e | emb
      · simp [query_knowledge, query_llm, hgroq, hw]
      · rcases hc : w.retrieveR.1 with _ | ⟨c, cs⟩
        · simp [query_knowledge, query_llm, hgroq, hw, hc]
        · simp [query_knowledge, query_llm, hgroq, hw, hc, hclient]
    · intro emb hw hchunks
      rcases hc : w.retrieveR.1 with _ | ⟨c, cs⟩
      · exact absurd hc hchunks
      · simp [query_knowledge, query_llm, hgroq, hw, hc, hclient]

/-- Witness for C2 amended: both amended branches at concrete inputs:
the groq request with no key is rejected with an empty trace, and the
unsupported provider is rejected with a 400 after embedding and
retrieval. -/
theorem c2_amended_witness :
    query_knowledge (worldOne (.ok [])) ⟨S "q", S "groq", none, none⟩ =
      (.error (.httpException 400 (S "Groq API key is required when using Groq models")),
        []) ∧
    query_knowledge (worldOne (.ok [])) ⟨S "q", S "openai", none, none⟩ =
      (.error (.httpException 400 (S "Unsupported LLM choice: " ++ S "openai")),
        [.embedCall, .retrieveCall]) :=
  ⟨c2_amended_validation.1 (worldOne (.ok [])) ⟨S "q", S "groq", none, none⟩ rfl rfl,
    (c2_amended_validation.2 (worldOne (.ok [])) ⟨S "q", S "openai", none, none⟩
      (by decide) (by decide)).2 0 rfl (by decide)⟩

/-- C5 counterexample: with one retrieved chunk and a raw LLM output
that is the empty string, `query_llm` returns a success response whose
`answer` field is the empty string, so `answer` is not always
non-empty. -/
theorem c5_counterexample :
    (query_llm (worldOne (.ok [])) (S "q") (S "local") none none).1 =
      .ok ⟨[], [], [S "http://a"], some (S "Local LLM (LM-Studio)")⟩ ∧
    insuffAnswer ≠ [] := by
  refine ⟨by decide, by decide⟩

/-- C5 amended: on zero retrieved chunks the answer is the fixed
non-empty insufficient-information sentinel; on the generated path the
answer is whatever the parser extracts from the raw LLM output and may
be empty (see the counterexample). -/
theorem c5_insufficient_answer_sentinel (w : World) (question llm_choice : PyStr)
    (model api_key : Option PyStr) (emb : Nat)
    (hemb : w.embedR = .ok emb) (hret : w.retrieveR.1 = []) :
    (query_llm w question llm_choice model api_key).1 =
      .ok ⟨insuffAnswer, insuffReasoning, [], some (insuffModelInfo llm_choice model)⟩ ∧
    insuffAnswer ≠ [] := by
  refine ⟨by simp [query_llm, hemb, hret], by decide⟩

/-- Witness for C5 amended: the sentinel answer at a concrete world with
empty retrieval. -/
theorem c5_sentinel_witness :
    (query_llm ⟨.ok 0, ([], []), .ok []⟩ (S "q") (S "groq") (some (S "llama3-70b-8192"))
        (some (S "k"))).1 =
      .ok ⟨insuffAnswer, insuffReasoning, [],
        some (insuffModelInfo (S "groq") (some (S "llama3-70b-8192")))⟩ ∧
    insuffAnswer ≠ [] :=
  c5_insufficient_answer_sentinel ⟨.ok 0, ([], []), .ok []⟩ (S "q") (S "groq")
    (some (S "llama3-70b-8192")) (some (S "k")) 0 rfl rfl

set_option maxRecDepth 10000 in
/-- C9: when the chat-completion call raises, the pipeline does raise a
500 whose detail starts with the provider hint, but the diagnostic text
it carries is the fixed `UnboundLocalError` message about
`full_response` — a constant independent of the original exception text
`eps` — because the inner parse-error handler catches the invocation
failure and reads `full_response` before assignment.  The spec's claim
that the detail carries the original exception's text is the intended
behaviour; the code loses it. -/
theorem c9_llm_failure_detail (w : World) (question : PyStr)
    (model api_key : Option PyStr) (emb : Nat) (eps : PyStr)
    (hemb : w.embedR = .ok emb) (hret : w.retrieveR.1 ≠ [])
    (hllm : w.llmR = .error eps) :
    (query_llm w question (S "local") model api_key).1 =
      .error (.httpException 500
        (S "Local LLM query failed. Is LM-Studio running at http://localhost:1234/v1? Error: cannot access local variable 'full_response' where it is not associated with a value")) := by
  rcases hc : w.retrieveR.1 with _ | ⟨c, cs⟩
  · exact absurd hc hret
  · have hdetail : llmErrorDetail (S "local") model (strExc (.nameError (S "full_response"))) =
        S "Local LLM query failed. Is LM-Studio running at http://localhost:1234/v1? Error: cannot access local variable 'full_response' where it is not associated with a value" := by
      unfold llmErrorDetail
      rw [if_pos rfl]
      decide
    simp [query_llm, hemb, hc, hllm, get_openai_client, hdetail]

/-- Witness for C9: the constant 500 detail at a concrete world whose
LLM call fails with `"connection refused"`; the detail does not mention
that text. -/
theorem c9_witness :
    (query_llm (worldOne (.error (S "connection refused"))) (S "q") (S "local") none none).1 =
      .error (.httpException 500
        (S "Local LLM query failed. Is LM-Studio running at http://localhost:1234/v1? Error: cannot access local variable 'full_response' where it is not associated with a value")) :=
  c9_llm_failure_detail (worldOne (.error (S "connection refused"))) (S "q") none none 0
    (S "connection refused") rfl (by decide) rfl

/-- C8 counterexample: on the generated path with the local provider the
label is the fixed `"Local LLM (LM-Studio)"`, not the `"Local LLM"` the
claim states for the non-remote case (the two fixed labels of the two
paths differ). -/
theorem c8_counterexample :
    (query_llm (worldOne (.ok (S "Reasoning: A\nAnswer: B"))) (S "q") (S "local") none none).1 =
      .ok ⟨S "B", S "A", [S "http://a"], some (S "Local LLM (LM-Studio)")⟩ ∧
    S "Local LLM (LM-Studio)" ≠ S "Local LLM" := by
  refine ⟨by decide, by decide⟩

/-- Helper: the client the local provider resolves to. -/
theorem get_openai_client_local (api_key : Option PyStr) :
    get_openai_client (S "local") api_key = .ok ⟨LM_STUDIO_URL, LM_STUDIO_API_KEY⟩ := rfl

/-- Helper: the client the groq provider resolves to under a truthy key. -/
theorem get_openai_client_groq (api_key : Option PyStr)
    (hkey : pyFalsyOpt api_key = false) :
    get_openai_client (S "groq") api_key = .ok ⟨GROQ_API_URL, api_key.getD []⟩ := by
  unfold get_openai_client
  rw [if_neg (by decide), if_pos rfl, if_neg (by simp [hkey])]

/-- Helper: the local provider's generated label is the fixed string. -/
theorem generatedModelLabel_local (model_id : PyStr) :
    generatedModelLabel (S "local") model_id = S "Local LLM (LM-Studio)" := by
  unfold generatedModelLabel
  rw [if_neg (by decide)]

/-- Helper: the model the groq provider resolves to is always in the
catalog. -/
theorem groq_resolved_in_catalog (model : Option PyStr) :
    ∃ e, groqFind (get_model_for_provider (S "groq") model) = some e := by
  rcases model with _ | m
  · exact ⟨⟨S "Llama-3 8B", S "Balanced speed and quality, good for most queries", 8192⟩,
      by decide⟩
  · have hgm : get_model_for_provider (S "groq") (some m) =
        if m ≠ [] ∧ (groqFind m).isSome = true then m else DEFAULT_GROQ_MODEL := rfl
    by_cases hm : m ≠ [] ∧ (groqFind m).isSome = true
    · rcases Option.isSome_iff_exists.mp hm.2 with ⟨e, he⟩
      refine ⟨e, ?_⟩
      rw [hgm, if_pos hm]
      exact he
    · refine ⟨⟨S "Llama-3 8B", S "Balanced speed and quality, good for most queries", 8192⟩, ?_⟩
      rw [hgm, if_neg hm]
      decide

/-- C8 amended: on the generated path the label is the catalog display
name of the resolved model when the provider is groq (the resolved model
is always a catalog model), and the fixed `"Local LLM (LM-Studio)"`
otherwise; on the insufficient-information path the label is derived
from the requested metadata: the catalog display name when groq is
requested with a known model, the raw requested model id when groq is
requested with an unknown non-empty model, and the fixed `"Local LLM"`
otherwise. -/
theorem c8_model_label :
    (∀ w question model api_key emb full resp,
      w.embedR = .ok emb → w.retrieveR.1 ≠ [] → w.llmR = .ok full →
      pyFalsyOpt api_key = false →
      (query_llm w question (S "groq") model api_key).1 = .ok resp →
      ∃ e, groqFind (get_model_for_provider (S "groq") model) = some e ∧
        resp.model_used = some e.name) ∧
    (∀ w question model api_key emb full resp,
      w.embedR = .ok emb → w.retrieveR.1 ≠ [] → w.llmR = .ok full →
      (query_llm w question (S "local") model api_key).1 = .ok resp →
      resp.model_used = some (S "Local LLM (LM-Studio)")) ∧
    (∀ w question llm_choice model api_key emb resp,
      w.embedR = .ok emb → w.retrieveR.1 = [] →
      (query_llm w question llm_choice model api_key).1 = .ok resp →
      resp.model_used = some (insuffModelInfo llm_choice model) ∧
      (∀ m e, model = some m → llm_choice = S "groq" → groqFind m = some e →
        insuffModelInfo llm_choice model = e.name) ∧
      (∀ m, model = some m → llm_choice = S "groq" → m ≠ [] → groqFind m = none →
        insuffModelInfo llm_choice model = m) ∧
      (llm_choice ≠ S "groq" → insuffModelInfo llm_choice model = S "Local LLM")) := by
  refine ⟨?_, ?_, ?_⟩
  · intro w question model api_key emb full resp hemb hret hllm hkey hresp
    rcases hc : w.retrieveR.1 with _ | ⟨c, cs⟩
    · exact absurd hc hret
    · rcases groq_resolved_in_catalog model with ⟨e, he⟩
      refine ⟨e, he, ?_⟩
      have hlabel : generatedModelLabel (S "groq") (get_model_for_provider (S "groq") model) =
          e.name := by
        unfold generatedModelLabel
        rw [if_pos rfl, he]
      rw [query_llm] at hresp
      simp [hemb, hc, hllm, get_openai_client_groq api_key hkey, hlabel] at hresp
      simp [← hresp]
  · intro w question model api_key emb full resp hemb hret hllm hresp
    rcases hc : w.retrieveR.1 with _ | ⟨c, cs⟩
    · exact absurd hc hret
    · rw [query_llm] at hresp
      simp [hemb, hc, hllm, get_openai_client_local, generatedModelLabel_local] at hresp
      simp [← hresp]
  · intro w question llm_choice model api_key emb resp hemb hret hresp
    rw [query_llm] at hresp
    simp [hemb, hret] at hresp
    refine ⟨by simp [← hresp], ?_, ?_, ?_⟩
    · intro m e hm hchoice hfind
      subst hm hchoice
      have hme : m ≠ [] := by
        intro hnil
        rw [hnil, show groqFind [] = none from by decide] at hfind
        exact Option.noConfusion hfind
      simp [insuffModelInfo, hme, hfind]
    · intro m hm hchoice hme hfind
      subst hm hchoice
      simp [insuffModelInfo, hme, hfind]
    · intro hchoice
      rcases model with _ | m
      · simp [insuffModelInfo]
      · simp [insuffModelInfo, hchoice]

/-- Witness for C8 amended: the three branches at concrete inputs: a
generated groq response labeled with the default catalog display name,
a generated local response labeled `"Local LLM (LM-Studio)"`, and an
insufficient-information response for groq with an unknown model
labeled with the raw requested id. -/
theorem c8_model_label_witness :
    (∃ e, groqFind (get_model_for_provider (S "groq") none) = some e ∧
      (⟨S "hi", S "", [S "http://a"], some (S "Llama-3 8B")⟩ : QueryResponse).model_used =
        some e.name) ∧
    (⟨S "hi", S "", [S "http://a"], some (S "Local LLM (LM-Studio)")⟩ :
        QueryResponse).model_used = some (S "Local LLM (LM-Studio)") ∧
    insuffModelInfo (S "groq") (some (S "unknown-model")) = S "unknown-model" := by
  refine ⟨?_, ?_, ?_⟩
  · exact c8_model_label.1 (worldOne (.ok (S "hi"))) (S "q") none (some (S "k")) 0
      (S "hi") ⟨S "hi", S "", [S "http://a"], some (S "Llama-3 8B")⟩ rfl (by decide) rfl
      (by decide) (by decide)
  · exact c8_model_label.2.1 (worldOne (.ok (S "hi"))) (S "q") none none 0 (S "hi")
      ⟨S "hi", S "", [S "http://a"], some (S "Local LLM (LM-Studio)")⟩ rfl (by decide) rfl
      (by decide)
  · exact ((c8_model_label.2.2 ⟨.ok 0, ([], []), .ok []⟩ (S "q") (S "groq")
      (some (S "unknown-model")) none 0
      ⟨insuffAnswer, insuffReasoning, [],
        some (insuffModelInfo (S "groq") (some (S "unknown-model")))⟩ rfl rfl
      (by decide)).2.2.1 (S "unknown-model") rfl rfl (by decide) (by decide))

/-- Helper: every run of `query_llm` ends in a returned response, a
propagated generic exception (from the embedding call), a 400, or a
500. -/
theorem query_llm_result_cases (w : World) (question llm_choice : PyStr)
    (model api_key : Option PyStr) :
    (∃ r, (query_llm w question llm_choice model api_key).1 = .ok r) ∨
    (∃ m, (query_llm w question llm_choice model api_key).1 = .error (.otherError m)) ∨
    (∃ d, (query_llm w question llm_choice model api_key).1 = .error (.httpException 400 d)) ∨
    (∃ d, (query_llm w question llm_choice model api_key).1 = .error (.httpException 500 d)) := by
  rcases hw : w.embedR with e | emb
  · exact .inr (.inl ⟨e, by simp [query_llm, hw]⟩)
  · rcases hc : w.retrieveR.1 with _ | ⟨c, cs⟩
    · exact .inl ⟨⟨insuffAnswer, insuffReasoning, [], some (insuffModelInfo llm_choice model)⟩,
        by simp [query_llm, hw, hc]⟩
    · rcases hcl : get_openai_client llm_choice api_key with ve | cl
      · exact .inr (.inr (.inl ⟨ve, by simp [query_llm, hw, hc, hcl]⟩))
      · rcases hl : w.llmR with eps | full
        · exact .inr (.inr (.inr
            ⟨llmErrorDetail llm_choice model (strExc (.nameError (S "full_response"))),
              by simp [query_llm, hw, hc, hcl, hl]⟩))
        · exact .inl ⟨⟨(parseResponse full).2, (parseResponse full).1,
            extractSourceUrls (rankChunks (c :: cs) w.retrieveR.2),
            some (generatedModelLabel llm_choice (get_model_for_provider llm_choice model))⟩,
            by simp [query_llm, hw, hc, hcl, hl]⟩

/-- C10: for every world and request the endpoint either returns a
response or raises an `HTTPException` with status 400 or 500 (no other
exception escapes the handler chain), and an `HTTPException` raised by
the inner pipeline passes through the endpoint with its status and
detail unchanged. -/
theorem c10_endpoint_contract (w : World) (q : QueryRequest) :
    ((∃ r, (query_knowledge w q).1 = .ok r) ∨
      (∃ d, (query_knowledge w q).1 = .error (.httpException 400 d)) ∨
      (∃ d, (query_knowledge w q).1 = .error (.httpException 500 d))) ∧
    (∀ s d, ¬(q.llm_choice = S "groq" ∧ pyFalsyOpt q.api_key = true) →
      (query_llm w q.question q.llm_choice q.model q.api_key).1 = .error (.httpException s d) →
      (query_knowledge w q).1 = .error (.httpException s d)) := by
  constructor
  · by_cases hpre : q.llm_choice = S "groq" ∧ pyFalsyOpt q.api_key = true
    · refine .inr (.inl ⟨S "Groq API key is required when using Groq models", ?_⟩)
      rw [query_knowledge, if_pos hpre]
    · rcases hq : query_llm w q.question q.llm_choice q.model q.api_key with ⟨res, tr⟩
      have hqk : query_knowledge w q =
          match (res, tr) with
          | (.ok resp, tr) => (.ok resp, tr)
          | (.error (.valueError m), tr) => (.error (.httpException 400 m), tr)
          | (.error (.httpException s d), tr) => (.error (.httpException s d), tr)
          | (.error e, tr) =>
            (.error (.httpException 500 (S "Internal server error: " ++ strExc e)), tr) := by
        rw [query_knowledge, if_neg hpre, hq]
      rcases query_llm_result_cases w q.question q.llm_choice q.model q.api_key with
        ⟨r, hr⟩ | ⟨m, hr⟩ | ⟨d, hr⟩ | ⟨d, hr⟩ <;> rw [hq] at hr <;> simp at hr <;> subst hr
      · exact .inl ⟨r, by rw [hqk]⟩
      · exact .inr (.inr ⟨_, by rw [hqk]⟩)
      · exact .inr (.inl ⟨d, by rw [hqk]⟩)
      · exact .inr (.inr ⟨d, by rw [hqk]⟩)
  · intro s d hpre hllm
    rcases hq : query_llm w q.question q.llm_choice q.model q.api_key with ⟨res, tr⟩
    rw [hq] at hllm
    simp at hllm
    subst hllm
    rw [query_knowledge, if_neg hpre, hq]

/-- Witness for C10: at a concrete world and request, the endpoint's
result is the 400 the pipeline raised, passed through unchanged. -/
theorem c10_witness :
    ((∃ r, (query_knowledge (worldOne (.ok [])) ⟨S "q", S "other", none, none⟩).1 = .ok r) ∨
      (∃ d, (query_knowledge (worldOne (.ok [])) ⟨S "q", S "other", none, none⟩).1 =
        .error (.httpException 400 d)) ∨
      (∃ d, (query_knowledge (worldOne (.ok [])) ⟨S "q", S "other", none, none⟩).1 =
        .error (.httpException 500 d))) ∧
    (query_knowledge (worldOne (.ok [])) ⟨S "q", S "other", none, none⟩).1 =
      .error (.httpException 400 (S "Unsupported LLM choice: other")) :=
  ⟨(c10_endpoint_contract (worldOne (.ok [])) ⟨S "q", S "other", none, none⟩).1,
    (c10_endpoint_contract (worldOne (.ok [])) ⟨S "q", S "other", none, none⟩).2
      400 (S "Unsupported LLM choice: other") (by decide) (by decide)⟩

/-- Helper: inserting a pair into a list keeps, for each score `k`, the
sublist of pairs with that score unchanged except for the inserted pair,
which lands in front of them (stability of one insertion step). -/
theorem filter_key_orderedInsert (k : ℚ) (a : Chunk × ℚ) (l : List (Chunk × ℚ)) :
    (List.orderedInsert (fun a b => b.2 ≤ a.2) a l).filter (fun x => decide (x.2 = k)) =
      if a.2 = k then a :: l.filter (fun x => decide (x.2 = k))
      else l.filter (fun x => decide (x.2 = k)) := by
  induction l with
  | nil =>
    simp only [List.orderedInsert, List.filter]
    by_cases hk : a.2 = k
    · rw [if_pos hk]
      simp [hk]
    · rw [if_neg hk]
      simp [hk]
  | cons b t ih =>
    simp only [List.orderedInsert]
    by_cases hba : b.2 ≤ a.2
    · rw [if_pos hba]
      by_cases hk : a.2 = k
      · rw [if_pos hk]
        simp [hk]
      · rw [if_neg hk]
        simp [hk]
    · rw [if_neg hba]
      by_cases hk : a.2 = k
      · rw [if_pos hk]
        have hbk : ¬b.2 = k := by
          intro h
          exact hba (h ▸ hk ▸ le_refl _)
        simp [hbk, ih, hk]
      · rw [if_neg hk]
        by_cases hbk : b.2 = k
        · simp [hbk, ih, hk]
        · simp [hbk, ih, hk]

/-- Helper: the stable descending sort keeps, for each score `k`, the
pairs carrying that score in their original relative order. -/
theorem filter_key_insertionSort (k : ℚ) (l : List (Chunk × ℚ)) :
    (List.insertionSort (fun a b => b.2 ≤ a.2) l).filter (fun x => decide (x.2 = k)) =
      l.filter (fun x => decide (x.2 = k)) := by
  induction l with
  | nil => rfl
  | cons a t ih =>
    simp only [List.insertionSort, filter_key_orderedInsert, ih]
    by_cases hk : a.2 = k
    · rw [if_pos hk]
      simp [hk]
    · rw [if_neg hk]
      simp [hk]

/-- C6: the ranked chunk list is sorted by similarity descending; it is
a permutation of the zipped retrieval result; ties keep their original
retrieval order (for each score the pairs with that score appear in
their original order); and on the spec's concrete example with scores
3/10 and 6/10 the 6/10 chunk comes first and the assembled context text
lists its block first. -/
theorem c6_ranking_stable_descending :
    (∀ chunks sims, (rankChunks chunks sims).Pairwise (fun a b => b.2 ≤ a.2)) ∧
    (∀ chunks sims, (rankChunks chunks sims).Perm (chunks.zip sims)) ∧
    (∀ chunks sims k, (rankChunks chunks sims).filter (fun x => decide (x.2 = k)) =
      (chunks.zip sims).filter (fun x => decide (x.2 = k))) ∧
    rankChunks [chunkA, chunkB] [mkRat 3 10, mkRat 6 10] =
      [(chunkB, mkRat 6 10), (chunkA, mkRat 3 10)] ∧
    assembleContext (rankChunks [chunkA, chunkB] [mkRat 3 10, mkRat 6 10]) =
      S "Source 1 - TB (http://b):\nbeta text\n\n---\n\nSource 2 - TA (http://a):\nalpha text" := by
  refine ⟨?_, ?_, ?_, by decide, by decide⟩
  · intro chunks sims
    exact List.sorted_insertionSort (fun a b => b.2 ≤ a.2) (chunks.zip sims)
  · intro chunks sims
    exact List.perm_insertionSort (fun a b => b.2 ≤ a.2) (chunks.zip sims)
  · intro chunks sims k
    exact filter_key_insertionSort k (chunks.zip sims)

/-- Helper: membership in the first-occurrence dedup is membership in
the original list. -/
theorem mem_specDedupFirst {x : PyStr} : ∀ {l : List PyStr},
    x ∈ specDedupFirst l → x ∈ l := by
  intro l
  induction l using specDedupFirst.induct with
  | case1 => simp [specDedupFirst]
  | case2 u rest ih =>
    rw [specDedupFirst]
    intro hx
    rcases List.mem_cons.mp hx with h | h
    · exact h ▸ List.mem_cons_self u rest
    · exact List.mem_cons_of_mem u (List.mem_of_mem_filter (ih h))

/-- Helper: the first-occurrence dedup has no duplicates. -/
theorem nodup_specDedupFirst : ∀ (l : List PyStr), (specDedupFirst l).Nodup := by
  intro l
  induction l using specDedupFirst.induct with
  | case1 => simp [specDedupFirst]
  | case2 u rest ih =>
    rw [specDedupFirst]
    refine List.nodup_cons.mpr ⟨?_, ih⟩
    intro hu
    have := List.of_mem_filter (mem_specDedupFirst hu)
    simp at this

/-- Helper: the url-collecting loop started from any accumulator is the
accumulator followed by the first-occurrence dedup of the non-empty urls
of the remaining chunks that are not already accumulated. -/
theorem collectUrls_eq : ∀ (l : List (Chunk × ℚ)) (acc : List PyStr),
    collectUrls acc l =
      acc ++ specDedupFirst
        (((l.map urlOf).filter (fun u => decide (u ≠ []))).filter
          (fun u => decide (u ∉ acc))) := by
  intro l
  induction l with
  | nil =>
    intro acc
    simp [collectUrls, specDedupFirst]
  | cons x t ih =>
    intro acc
    by_cases h1 : urlOf x ≠ []
    · by_cases h2 : urlOf x ∉ acc
      · rw [show collectUrls acc (x :: t) = collectUrls (acc ++ [urlOf x]) t from by
          rw [collectUrls, if_pos ⟨h1, h2⟩]]
        rw [ih]
        have hfilters :
            ((t.map urlOf).filter (fun u => decide (u ≠ []))).filter
                (fun u => decide (u ∉ acc ++ [urlOf x])) =
              (((t.map urlOf).filter (fun u => decide (u ≠ []))).filter
                (fun u => decide (u ∉ acc))).filter (fun u => decide (u ≠ urlOf x)) := by
          simp only [List.filter_filter]
          apply List.filter_congr
          intro v _
          by_cases hv1 : v ∈ acc <;> by_cases hv2 : v = urlOf x <;>
            by_cases hv3 : v = [] <;> simp [hv1, hv2, hv3, List.mem_append]
        rw [hfilters]
        have hhead : (((x :: t).map urlOf).filter (fun u => decide (u ≠ []))).filter
              (fun u => decide (u ∉ acc)) =
            urlOf x :: (((t.map urlOf).filter (fun u => decide (u ≠ []))).filter
              (fun u => decide (u ∉ acc))) := by
          simp [List.filter_cons, h1, h2]
        rw [hhead, specDedupFirst]
        simp
      · push_neg at h2
        rw [show collectUrls acc (x :: t) = collectUrls acc t from by
          rw [collectUrls, if_neg (by tauto)]]
        rw [ih]
        have hhead : (((x :: t).map urlOf).filter (fun u => decide (u ≠ []))).filter
              (fun u => decide (u ∉ acc)) =
            ((t.map urlOf).filter (fun u => decide (u ≠ []))).filter
              (fun u => decide (u ∉ acc)) := by
          simp [List.filter_cons, h1, h2]
        rw [hhead]
    · push_neg at h1
      rw [show collectUrls acc (x :: t) = collectUrls acc t from by
        rw [collectUrls, if_neg (by tauto)]]
      rw [ih]
      have hhead : ((x :: t).map urlOf).filter (fun u => decide (u ≠ [])) =
          (t.map urlOf).filter (fun u => decide (u ≠ [])) := by
        simp [List.filter_cons, h1]
      rw [hhead]

/-- C7: the source url list produced from a ranked chunk list has no
duplicates, holds only non-empty urls, and equals the first-occurrence
dedup of the non-empty urls of the ranked chunks in order (so first-seen
order is preserved). -/
theorem c7_source_urls_dedup_first (ranked : List (Chunk × ℚ)) :
    (extractSourceUrls ranked).Nodup ∧
    (∀ u ∈ extractSourceUrls ranked, u ≠ []) ∧
    extractSourceUrls ranked =
      specDedupFirst ((ranked.map urlOf).filter (fun u => decide (u ≠ []))) := by
  have heq : extractSourceUrls ranked =
      specDedupFirst ((ranked.map urlOf).filter (fun u => decide (u ≠ []))) := by
    rw [extractSourceUrls, collectUrls_eq]
    simp
  refine ⟨?_, ?_, heq⟩
  · rw [heq]
    exact nodup_specDedupFirst _
  · intro u hu
    rw [heq] at hu
    have := List.of_mem_filter (mem_specDedupFirst hu)
    simpa using this

/-- Helper: when the separator occurs nowhere in `s`, the split scanner
returns a single piece. -/
theorem pySplitAux_no_occ (sep : PyStr) : ∀ (s cur : PyStr) (fuel : Nat),
    s.length ≤ fuel → containsSub sep s = false →
    pySplitAux sep fuel s cur = [cur.reverse ++ s] := by
  intro s
  induction s with
  | nil =>
    intro cur fuel _ _
    cases fuel with
    | zero => simp [pySplitAux]
    | succ f => simp [pySplitAux]
  | cons c rest ih =>
    intro cur fuel hfuel hocc
    cases fuel with
    | zero => simp at hfuel
    | succ f =>
      rw [containsSub] at hocc
      rcases Bool.or_eq_false_iff.mp hocc with ⟨h1, h2⟩
      rw [pySplitAux]
      simp only [h1, Bool.false_eq_true, if_false]
      rw [ih (c :: cur) f (Nat.le_of_succ_le_succ hfuel) h2]
      simp

/-- Helper: the split scanner's result does not depend on the fuel, as
long as the fuel covers the text's length and the separator is
non-empty. -/
theorem pySplitAux_fuel_irrelevant (sep : PyStr) (hsep : sep ≠ []) :
    ∀ (fuel₁ : Nat) (s cur : PyStr) (fuel₂ : Nat),
    s.length ≤ fuel₁ → s.length ≤ fuel₂ →
    pySplitAux sep fuel₁ s cur = pySplitAux sep fuel₂ s cur := by
  intro fuel₁
  induction fuel₁ with
  | zero =>
    intro s cur fuel₂ h1 _
    have hs : s = [] := List.length_eq_zero.mp (Nat.le_zero.mp h1)
    subst hs
    cases fuel₂ with
    | zero => rfl
    | succ f₂ => simp [pySplitAux]
  | succ f ih =>
    intro s cur fuel₂ h1 h2
    rcases s with _ | ⟨c, rest⟩
    · cases fuel₂ with
      | zero => simp [pySplitAux]
      | succ f₂ => rfl
    · rcases fuel₂ with _ | f₂
      · simp at h2
      · have hseplen : 1 ≤ sep.length := List.length_pos.mpr hsep
        by_cases hp : sep.isPrefixOf (c :: rest) = true
        · rw [pySplitAux, pySplitAux]
          simp only [hp, if_true]
          have hdrop : ((c :: rest).drop sep.length).length ≤ f := by
            rw [List.length_drop]
            omega
          have hdrop2 : ((c :: rest).drop sep.length).length ≤ f₂ := by
            rw [List.length_drop]
            omega
          rw [ih ((c :: rest).drop sep.length) [] f₂ hdrop hdrop2]
        · rw [pySplitAux, pySplitAux]
          simp only [hp, Bool.false_eq_true, if_false]
          exact ih rest (c :: cur) f₂ (Nat.le_of_succ_le_succ h1) (Nat.le_of_succ_le_succ h2)

/-- Helper: an occurrence of `sep` starting at position `i` of `t`
witnesses Python's `sep in t`. -/
theorem containsSub_of_prefix_drop (sep : PyStr) : ∀ (t : PyStr) (i : Nat),
    sep <+: t.drop i → containsSub sep t = true := by
  intro t
  induction t with
  | nil =>
    intro i h
    simp only [List.drop_nil] at h
    rcases List.prefix_nil.mp h with rfl
    rfl
  | cons c rest ih =>
    intro i h
    cases i with
    | zero =>
      rw [containsSub]
      simp only [List.drop_zero] at h
      simp [List.isPrefixOf_iff_prefix.mpr h]
    | succ j =>
      rw [containsSub]
      have := ih j (by simpa using h)
      simp [this]

/-- Helper: the split scanner walks through a clean prefix `a` (no
occurrence of `sep` starts inside it), finds the occurrence of `sep`
at the start of `b`, emits `a`, and restarts after the separator. -/
theorem pySplitAux_through (sep : PyStr) (hsep : sep ≠ []) :
    ∀ (a b cur : PyStr) (fuel : Nat),
    (a ++ b).length ≤ fuel →
    (∀ i, i < a.length → sep.isPrefixOf ((a ++ b).drop i) = false) →
    sep.isPrefixOf b = true →
    pySplitAux sep fuel (a ++ b) cur =
      (cur.reverse ++ a) :: pySplit sep (b.drop sep.length) := by
  intro a
  induction a with
  | nil =>
    intro b cur fuel hfuel _ hpre
    rcases b with _ | ⟨c, rest⟩
    · rcases List.prefix_nil.mp (List.isPrefixOf_iff_prefix.mp hpre) with rfl
      exact absurd rfl hsep
    · cases fuel with
      | zero => simp at hfuel
      | succ f =>
        simp only [List.nil_append]
        rw [pySplitAux]
        simp only [hpre, if_true]
        have hseplen : 1 ≤ sep.length := List.length_pos.mpr hsep
        have hdlen : ((c :: rest).drop sep.length).length ≤ f := by
          rw [List.length_drop]
          simp only [List.nil_append] at hfuel
          omega
        rw [pySplitAux_fuel_irrelevant sep hsep f ((c :: rest).drop sep.length) []
          ((c :: rest).drop sep.length).length hdlen (le_refl _)]
        rw [pySplit]
        simp
  | cons d a' ih =>
    intro b cur fuel hfuel hno hpre
    cases fuel with
    | zero => simp at hfuel
    | succ f =>
      have h0 : sep.isPrefixOf (d :: (a' ++ b)) = false := by
        have := hno 0 (by simp)
        simpa using this
      simp only [List.cons_append]
      rw [pySplitAux]
      simp only [h0, Bool.false_eq_true, if_false]
      have hrec := ih b (d :: cur) f
        (by simpa using Nat.le_of_succ_le_succ (by simpa using hfuel))
        (fun i hi => by
          have := hno (i + 1) (by simpa using Nat.succ_lt_succ hi)
          simpa using this)
        hpre
      rw [hrec]
      simp

/-- Helper: if `sep` has no occurrence inside `(a ++ sep).dropLast`,
then no occurrence of `sep` in `a ++ sep ++ b` starts inside `a` (an
occurrence starting there would lie entirely within the dropLast). -/
theorem no_early_occ (sep a b : PyStr)
    (h : containsSub sep ((a ++ sep).dropLast) = false) :
    ∀ i, i < a.length → sep.isPrefixOf ((a ++ (sep ++ b)).drop i) = false := by
  intro i hi
  by_contra hcon
  rw [Bool.not_eq_false] at hcon
  have hpre : sep <+: ((a ++ (sep ++ b)).drop i) := List.isPrefixOf_iff_prefix.mp hcon
  have hassoc : a ++ (sep ++ b) = (a ++ sep) ++ b := (List.append_assoc a sep b).symm
  have hile : i ≤ (a ++ sep).length := by
    rw [List.length_append]
    omega
  rw [hassoc, List.drop_append_of_le_length hile] at hpre
  have hxlen : sep.length + 1 ≤ ((a ++ sep).drop i).length := by
    rw [List.length_drop, List.length_append]
    omega
  have htake : sep = ((a ++ sep).drop i).take sep.length := by
    have h1 := List.prefix_iff_eq_take.mp hpre
    rwa [List.take_append_of_le_length (by omega)] at h1
  have hdl : sep <+: ((a ++ sep).drop i).dropLast := by
    rw [List.dropLast_eq_take]
    refine List.prefix_take_iff.mpr ⟨?_, by omega⟩
    conv_lhs => rw [htake]
    exact List.take_prefix _ _
  have hcomm : ((a ++ sep).dropLast).drop i = ((a ++ sep).drop i).dropLast := by
    rw [List.dropLast_eq_take, List.dropLast_eq_take, List.drop_take, List.length_drop]
    congr 1
    omega
  have : containsSub sep ((a ++ sep).dropLast) = true :=
    containsSub_of_prefix_drop sep _ i (by rw [hcomm]; exact hdl)
  rw [this] at h
  exact Bool.noConfusion h

/-- Helper: a string equal to its own strip has no leading and no
trailing whitespace (each dropWhile removes nothing). -/
theorem pyStrip_eq_self_facts (s : PyStr) (h : pyStrip s = s) :
    s.dropWhile pyIsSpace = s ∧ s.reverse.dropWhile pyIsSpace = s.reverse := by
  have hsuffix1 : s.dropWhile pyIsSpace <:+ s := List.dropWhile_suffix pyIsSpace
  have hlen : (pyStrip s).length = s.length := by rw [h]
  rw [pyStrip] at hlen
  simp only [List.length_reverse] at hlen
  have hle1 : (s.dropWhile pyIsSpace).length ≤ s.length := hsuffix1.sublist.length_le
  have hle2 : ((s.dropWhile pyIsSpace).reverse.dropWhile pyIsSpace).length ≤
      (s.dropWhile pyIsSpace).length := by
    have := (List.dropWhile_suffix (l := (s.dropWhile pyIsSpace).reverse)
      pyIsSpace).sublist.length_le
    simpa using this
  have hd1 : s.dropWhile pyIsSpace = s := hsuffix1.eq_of_length (by omega)
  refine ⟨hd1, ?_⟩
  have h3 : (s.reverse.dropWhile pyIsSpace).reverse = s := by
    rw [pyStrip, hd1] at h
    exact h
  have h4 := congrArg List.reverse h3
  simpa using h4

/-- Helper: stripping a stripped string with one leading blank gives the
string back. -/
theorem pyStrip_space_cons (Y : PyStr) (h : pyStrip Y = Y) : pyStrip (' ' :: Y) = Y := by
  obtain ⟨h1, h2⟩ := pyStrip_eq_self_facts Y h
  rw [pyStrip, List.dropWhile_cons, if_pos (show pyIsSpace ' ' = true from rfl)]
  rw [h1, h2, List.reverse_reverse]

/-- Helper: stripping a stripped string with a leading blank and a
trailing newline gives the string back. -/
theorem pyStrip_wrap (X : PyStr) (h : pyStrip X = X) :
    pyStrip (' ' :: (X ++ S "\n")) = X := by
  obtain ⟨h1, h2⟩ := pyStrip_eq_self_facts X h
  rcases X with _ | ⟨x, X'⟩
  · decide
  · have hx : pyIsSpace x = false := by
      by_contra hxc
      rw [Bool.not_eq_false] at hxc
      rw [List.dropWhile_cons, if_pos hxc] at h1
      have hlen := congrArg List.length h1
      have hle := (List.dropWhile_suffix (l := X') pyIsSpace).sublist.length_le
      simp at hlen
      omega
    have hnl : S "\n" = ['\n'] := rfl
    rw [pyStrip, List.dropWhile_cons, if_pos (show pyIsSpace ' ' = true from rfl)]
    rw [List.cons_append, List.dropWhile_cons, if_neg (by simp [hx])]
    have hrev : (x :: (X' ++ S "\n")).reverse = '\n' :: (x :: X').reverse := by
      rw [hnl]
      simp
    rw [hrev, List.dropWhile_cons, if_pos (show pyIsSpace '\n' = true from rfl), h2,
      List.reverse_reverse]

/-- Helper: the parser on a response of the exact well-formed shape
`"Reasoning: X\nAnswer: Y"` with stripped `X` and `Y` and no further
marker occurrences yields exactly `(X, Y)`. -/
theorem parseResponse_single_markers (X Y : PyStr)
    (hX : pyStrip X = X) (hY : pyStrip Y = Y)
    (hR : containsSub reaM (' ' :: (X ++ S "\n")) = false)
    (hA1 : containsSub ansM ((S "Reasoning: " ++ X ++ S "\n" ++ ansM).dropLast) = false)
    (hA2 : containsSub ansM (' ' :: Y) = false) :
    parseResponse (S "Reasoning: " ++ X ++ S "\nAnswer: " ++ Y) = (X, Y) := by
  have hreallit : S "Reasoning: " = reaM ++ [' '] := by decide
  have hansne : ansM ≠ [] := by decide
  have hreane : reaM ≠ [] := by decide
  have hform : S "Reasoning: " ++ X ++ S "\nAnswer: " ++ Y =
      (S "Reasoning: " ++ X ++ S "\n") ++ (ansM ++ (' ' :: Y)) := by
    have h1 : S "\nAnswer: " = S "\n" ++ (ansM ++ [' ']) := by decide
    rw [h1]
    simp [List.append_assoc]
  have hcontR : containsSub reaM (S "Reasoning: " ++ X ++ S "\nAnswer: " ++ Y) = true := by
    apply containsSub_of_prefix_drop reaM _ 0
    simp only [List.drop_zero]
    exact ⟨[' '] ++ X ++ S "\nAnswer: " ++ Y, by rw [hreallit]; simp [List.append_assoc]⟩
  have hcontA : containsSub ansM (S "Reasoning: " ++ X ++ S "\nAnswer: " ++ Y) = true := by
    apply containsSub_of_prefix_drop ansM _ (S "Reasoning: " ++ X ++ S "\n").length
    rw [hform, List.drop_left]
    exact List.prefix_append _ _
  have hpreA : ansM.isPrefixOf (ansM ++ (' ' :: Y)) = true :=
    List.isPrefixOf_iff_prefix.mpr (List.prefix_append _ _)
  have hparts : pySplit ansM (S "Reasoning: " ++ X ++ S "\nAnswer: " ++ Y) =
      [S "Reasoning: " ++ X ++ S "\n", ' ' :: Y] := by
    rw [hform, pySplit]
    rw [pySplitAux_through ansM hansne (S "Reasoning: " ++ X ++ S "\n") (ansM ++ (' ' :: Y)) []
      ((S "Reasoning: " ++ X ++ S "\n") ++ (ansM ++ (' ' :: Y))).length (le_refl _)
      (no_early_occ ansM _ _ hA1) hpreA]
    rw [List.drop_left]
    rw [pySplit, pySplitAux_no_occ ansM _ [] _ (le_refl _) hA2]
    simp
  have hpreR : reaM.isPrefixOf (reaM ++ (' ' :: (X ++ S "\n"))) = true :=
    List.isPrefixOf_iff_prefix.mpr (List.prefix_append _ _)
  have hrparts : pySplit reaM (S "Reasoning: " ++ X ++ S "\n") = [[], ' ' :: (X ++ S "\n")] := by
    have hform2 : S "Reasoning: " ++ X ++ S "\n" =
        ([] : PyStr) ++ (reaM ++ (' ' :: (X ++ S "\n"))) := by
      rw [hreallit]
      simp [List.append_assoc]
    rw [hform2, pySplit]
    rw [pySplitAux_through reaM hreane [] (reaM ++ (' ' :: (X ++ S "\n"))) []
      (([] : PyStr) ++ (reaM ++ (' ' :: (X ++ S "\n")))).length (le_refl _)
      (fun i hi => absurd hi (by simp)) hpreR]
    rw [List.drop_left]
    rw [pySplit, pySplitAux_no_occ reaM _ [] _ (le_refl _) hR]
    simp
  rw [parseResponse, hcontR, hcontA]
  simp only [Bool.and_self, if_true, hparts]
  simp only [List.length_cons, List.length_nil, Nat.lt_add_one_iff, List.getD_cons_succ,
    List.getD_cons_zero]
  rw [hrparts]
  simp only [List.length_cons, List.length_nil, List.getD_cons_succ, List.getD_cons_zero]
  rw [pyStrip_space_cons Y hY, pyStrip_wrap X hX]
  simp

/-- C3 counterexample: on a raw output in which `"Answer:"` occurs
twice, the parser's answer is only the segment between the first and
second occurrences (Python `str.split` semantics), not everything after
the first occurrence as the claim states. -/
theorem c3_counterexample :
    (parseResponse (S "Reasoning: X\nAnswer: Y Answer: Z")).2 = S "Y" ∧
    S "Y" ≠ S "Y Answer: Z" := by
  refine ⟨by decide, by decide⟩

/-- C3 amended: when both markers occur, the parser splits on all
occurrences and keeps segment 1: the answer is the text strictly
between the first `"Answer:"` and the next occurrence (or the end),
trimmed, and the reasoning is the text strictly between the first
`"Reasoning:"` and the next occurrence within the pre-`"Answer:"` part,
trimmed.  When each marker occurs exactly once,
`"Reasoning: X\nAnswer: Y"` parses to exactly `(X, Y)`; with repeated
markers only the first segment is kept. -/
theorem c3_parser_amended :
    (∀ X Y : PyStr,
      pyStrip X = X → pyStrip Y = Y →
      containsSub reaM (' ' :: (X ++ S "\n")) = false →
      containsSub ansM ((S "Reasoning: " ++ X ++ S "\n" ++ ansM).dropLast) = false →
      containsSub ansM (' ' :: Y) = false →
      parseResponse (S "Reasoning: " ++ X ++ S "\nAnswer: " ++ Y) = (X, Y)) ∧
    parseResponse (S "Reasoning: X\nAnswer: Y Answer: Z") = (S "X", S "Y") ∧
    parseResponse (S "Reasoning: A Reasoning: B\nAnswer: C") = (S "A", S "C") := by
  refine ⟨parseResponse_single_markers, by decide, by decide⟩

/-- Witness for C3 amended: the single-occurrence shape at the concrete
`X`, `Y` of the spec's example. -/
theorem c3_parser_witness :
    parseResponse (S "Reasoning: " ++ S "X" ++ S "\nAnswer: " ++ S "Y") = (S "X", S "Y") :=
  c3_parser_amended.1 (S "X") (S "Y") (by decide) (by decide) (by decide) (by decide)
    (by decide)

/-- C4 counterexample: on a raw output with no markers the parser's
fallback reasoning is the empty string, not the
`"Unable to extract structured reasoning."` sentinel the claim states
(that sentinel only appears in the exception handler, which the pure
parsing path never enters). -/
theorem c4_counterexample :
    parseResponse (S "plain text with no markers") =
      (S "", S "plain text with no markers") ∧
    (S "" : PyStr) ≠ S "Unable to extract structured reasoning." := by
  refine ⟨by decide, by decide⟩

/-- C4 amended: when either marker is absent the parser returns the
empty reasoning and the raw text unmodified as the answer; the path is
a total function of the raw text, so it cannot raise. -/
theorem c4_missing_marker_fallback (raw : PyStr)
    (h : containsSub reaM raw = false ∨ containsSub ansM raw = false) :
    parseResponse raw = ([], raw) := by
  rcases h with h | h <;> simp [parseResponse, h]

/-- Witness for C4 amended: the fallback at a concrete marker-free raw
output. -/
theorem c4_missing_marker_witness :
    parseResponse (S "no structure here") = ([], S "no structure here") :=
  c4_missing_marker_fallback (S "no structure here") (Or.inr (by decide))
